import Mathlib

/-!
Verification of the morphing-blob background renderer
(`canvas_html.vue` — Raster Compositor, and `canvas_webgl.vue` — Field
Renderer) against its specification.

Numbers are modelled exactly: the blob simulation over `ℚ`, the shader
arithmetic (which uses `exp` and `pow`) over `ℝ`.
-/

namespace LavaLamp

/-- An RGB colour triple, as uploaded to the `u_circlesColor` uniform
(`canvas_webgl.vue` `circleColors`); the html palette strings denote the
same triples scaled by 255. -/
abbrev RGBQ := ℚ × ℚ × ℚ

/-- A blob / circle. Field names follow the object literals of
`canvas_webgl.vue` (`initCircles`); `canvas_html.vue`'s `Circle` class has
the same fields with `velocity.x`/`velocity.y`/`isInteractive` spelled
`vx`/`vy`/`interactive` here. -/
structure Circle where
  x : ℚ
  y : ℚ
  radius : ℚ
  color : RGBQ
  vx : ℚ
  vy : ℚ
  interactive : Bool
deriving DecidableEq, Repr

/-- `Circle.update` of `canvas_html.vue` (lines 60–77), identically the
non-interactive branch of `updateCircles` in `canvas_webgl.vue`
(lines 215–223): add the velocity, then wrap each axis independently. -/
def Circle.update (width height : ℚ) (c : Circle) : Circle :=
  let x0 := c.x + c.vx
  let y0 := c.y + c.vy
  let x1 := if x0 - c.radius > width then -c.radius else x0
  let x2 := if x1 + c.radius < 0 then width + c.radius else x1
  let y1 := if y0 - c.radius > height then -c.radius else y0
  let y2 := if y1 + c.radius < 0 then height + c.radius else y1
  { c with x := x2, y := y2 }

/-- One simulation step for a single circle: the interactive circle
follows the mouse by exponential smoothing (`c.x += (mouse.x - c.x) * 0.1`),
the others run `Circle.update` (`canvas_webgl.vue` `updateCircles`,
lines 212–230; `canvas_html.vue` `animate`, lines 157–165). -/
def stepCircle (mouse : ℚ × ℚ) (width height : ℚ) (c : Circle) : Circle :=
  if !c.interactive then
    Circle.update width height c
  else
    { c with
      x := c.x + (mouse.1 - c.x) * (1/10),
      y := c.y + (mouse.2 - c.y) * (1/10) }

/-- `updateCircles` of `canvas_webgl.vue` (lines 212–230): advance every
circle in the scene once. -/
def updateCircles (mouse : ℚ × ℚ) (width height : ℚ)
    (circles : List Circle) : List Circle :=
  circles.map (stepCircle mouse width height)

/-- The blob is inside the toroidal band
`[-radius, width+radius] × [-radius, height+radius]`. -/
def inBand (width height : ℚ) (c : Circle) : Prop :=
  -c.radius ≤ c.x ∧ c.x ≤ width + c.radius ∧
  -c.radius ≤ c.y ∧ c.y ≤ height + c.radius

instance (width height : ℚ) (c : Circle) : Decidable (inBand width height c) := by
  unfold inBand; infer_instance

lemma update_x_mem (width height : ℚ) (c : Circle)
    (hr : 0 ≤ c.radius) (hw : 0 ≤ width) :
    -c.radius ≤ (Circle.update width height c).x ∧
      (Circle.update width height c).x ≤ width + c.radius := by
  simp only [Circle.update]
  split_ifs with h1 h2 h2 <;> constructor <;> linarith

lemma update_y_mem (width height : ℚ) (c : Circle)
    (hr : 0 ≤ c.radius) (hh : 0 ≤ height) :
    -c.radius ≤ (Circle.update width height c).y ∧
      (Circle.update width height c).y ≤ height + c.radius := by
  simp only [Circle.update]
  split_ifs with h1 h2 h2 <;> constructor <;> linarith

lemma update_inBand (width height : ℚ) (c : Circle)
    (hr : 0 ≤ c.radius) (hw : 0 ≤ width) (hh : 0 ≤ height) :
    inBand width height (Circle.update width height c) := by
  have hx := update_x_mem width height c hr hw
  have hy := update_y_mem width height c hr hh
  exact ⟨hx.1, hx.2, hy.1, hy.2⟩

lemma update_radius (width height : ℚ) (c : Circle) :
    (Circle.update width height c).radius = c.radius := rfl

lemma iterate_update_radius (width height : ℚ) (c : Circle) (n : ℕ) :
    ((Circle.update width height)^[n] c).radius = c.radius := by
  induction n with
  | zero => rfl
  | succ k ih => rw [Function.iterate_succ_apply', update_radius, ih]

lemma iterate_update_inBand (width height : ℚ) (c : Circle)
    (hr : 0 ≤ c.radius) (hw : 0 ≤ width) (hh : 0 ≤ height)
    (hc : inBand width height c) (n : ℕ) :
    inBand width height ((Circle.update width height)^[n] c) := by
  induction n with
  | zero => simpa using hc
  | succ k ih =>
      rw [Function.iterate_succ_apply']
      have hrk : 0 ≤ ((Circle.update width height)^[k] c).radius := by
        rw [iterate_update_radius]; exact hr
      exact update_inBand width height _ hrk hw hh

lemma update_teleport_right (width height : ℚ) (c : Circle)
    (h : c.x + c.vx - c.radius > width) :
    (Circle.update width height c).x = -c.radius := by
  simp only [Circle.update]
  rw [if_pos h, if_neg (by linarith)]

lemma update_teleport_left (width height : ℚ) (c : Circle)
    (hr : 0 ≤ c.radius) (hw : 0 ≤ width)
    (h : c.x + c.vx + c.radius < 0) :
    (Circle.update width height c).x = width + c.radius := by
  simp only [Circle.update]
  have hinner : ¬ (c.x + c.vx - c.radius > width) := by linarith
  rw [if_neg hinner, if_pos h]

lemma update_teleport_down (width height : ℚ) (c : Circle)
    (h : c.y + c.vy - c.radius > height) :
    (Circle.update width height c).y = -c.radius := by
  simp only [Circle.update]
  rw [if_pos h, if_neg (by linarith)]

lemma update_teleport_up (width height : ℚ) (c : Circle)
    (hr : 0 ≤ c.radius) (hh : 0 ≤ height)
    (h : c.y + c.vy + c.radius < 0) :
    (Circle.update width height c).y = height + c.radius := by
  simp only [Circle.update]
  have hinner : ¬ (c.y + c.vy - c.radius > height) := by linarith
  rw [if_neg hinner, if_pos h]

/-- Claim C1: an ambient blob inside the band
`[-radius, width+radius] × [-radius, height+radius]` stays inside it under
any number of simulation steps, and whenever the per-axis add carries an
edge past the outer wrap boundary the blob is teleported to the opposite
edge in that same step; moreover a non-interactive circle's scene step is
exactly `Circle.update`. -/
theorem C1_wrap_invariant (width height : ℚ) (c : Circle)
    (hr : 0 ≤ c.radius) (hw : 0 ≤ width) (hh : 0 ≤ height)
    (hc : inBand width height c) (n : ℕ) (mouse : ℚ × ℚ) :
    inBand width height ((Circle.update width height)^[n] c) ∧
    (c.x + c.vx - c.radius > width →
      (Circle.update width height c).x = -c.radius) ∧
    (c.x + c.vx + c.radius < 0 →
      (Circle.update width height c).x = width + c.radius) ∧
    (c.y + c.vy - c.radius > height →
      (Circle.update width height c).y = -c.radius) ∧
    (c.y + c.vy + c.radius < 0 →
      (Circle.update width height c).y = height + c.radius) ∧
    (c.interactive = false →
      stepCircle mouse width height c = Circle.update width height c) := by
  refine ⟨iterate_update_inBand width height c hr hw hh hc n, ?_, ?_, ?_, ?_, ?_⟩
  · exact update_teleport_right width height c
  · exact update_teleport_left width height c hr hw
  · exact update_teleport_down width height c
  · exact update_teleport_up width height c hr hh
  · intro hni; simp [stepCircle, hni]

/-- Witness for C1 at a concrete circle: width 100, height 100, radius 10,
position (0, 95), velocity (200, 30); the x-add overshoots the right wrap
boundary and is teleported to `-radius` in the same step. -/
theorem C1_wrap_invariant_witness :
    (0 : ℚ) ≤ 10 ∧ (0 : ℚ) ≤ 100 ∧ (0 : ℚ) ≤ 100 ∧
    inBand 100 100
      { x := 0, y := 95, radius := 10, color := (0, 0, 0),
        vx := 200, vy := 30, interactive := false } ∧
    (inBand 100 100 ((Circle.update 100 100)^[2]
      { x := 0, y := 95, radius := 10, color := (0, 0, 0),
        vx := 200, vy := 30, interactive := false }) ∧
     ((0 : ℚ) + 200 - 10 > 100 →
       (Circle.update 100 100
         { x := 0, y := 95, radius := 10, color := (0, 0, 0),
           vx := 200, vy := 30, interactive := false }).x = -10) ∧
     ((0 : ℚ) + 200 + 10 < 0 →
       (Circle.update 100 100
         { x := 0, y := 95, radius := 10, color := (0, 0, 0),
           vx := 200, vy := 30, interactive := false }).x = 100 + 10) ∧
     ((95 : ℚ) + 30 - 10 > 100 →
       (Circle.update 100 100
         { x := 0, y := 95, radius := 10, color := (0, 0, 0),
           vx := 200, vy := 30, interactive := false }).y = -10) ∧
     ((95 : ℚ) + 30 + 10 < 0 →
       (Circle.update 100 100
         { x := 0, y := 95, radius := 10, color := (0, 0, 0),
           vx := 200, vy := 30, interactive := false }).y = 100 + 10) ∧
     (({ x := 0, y := 95, radius := 10, color := (0, 0, 0),
           vx := 200, vy := 30, interactive := false } : Circle).interactive = false →
       stepCircle (50, 50) 100 100
         { x := 0, y := 95, radius := 10, color := (0, 0, 0),
           vx := 200, vy := 30, interactive := false }
         = Circle.update 100 100
         { x := 0, y := 95, radius := 10, color := (0, 0, 0),
           vx := 200, vy := 30, interactive := false })) :=
  ⟨by norm_num, by norm_num, by norm_num, by norm_num [inBand],
   C1_wrap_invariant 100 100
     { x := 0, y := 95, radius := 10, color := (0, 0, 0),
       vx := 200, vy := 30, interactive := false }
     (by norm_num) (by norm_num) (by norm_num) (by norm_num [inBand]) 2 (50, 50)⟩

/-- The interactive-circle position update of one frame: exponential
smoothing toward the mouse, `c.x += (mouse.x - c.x) * 0.1` and likewise
for `y` (`canvas_html.vue` lines 158–160, `canvas_webgl.vue`
lines 224–228). -/
def interactiveStep (mouse p : ℚ × ℚ) : ℚ × ℚ :=
  (p.1 + (mouse.1 - p.1) * (1/10), p.2 + (mouse.2 - p.2) * (1/10))

/-- Euclidean distance between two points of the simulation plane. -/
noncomputable def pointerDist (p q : ℚ × ℚ) : ℝ :=
  Real.sqrt (((p.1 - q.1) ^ 2 + (p.2 - q.2) ^ 2 : ℚ) : ℝ)

lemma pointerDist_nonneg (p q : ℚ × ℚ) : 0 ≤ pointerDist p q :=
  Real.sqrt_nonneg _

lemma interactiveStep_ratio (mouse p : ℚ × ℚ) :
    pointerDist (interactiveStep mouse p) mouse = (9/10) * pointerDist p mouse := by
  have hsq : ((interactiveStep mouse p).1 - mouse.1) ^ 2 +
      ((interactiveStep mouse p).2 - mouse.2) ^ 2 =
      (81/100) * ((p.1 - mouse.1) ^ 2 + (p.2 - mouse.2) ^ 2) := by
    simp only [interactiveStep]
    ring
  unfold pointerDist
  rw [hsq]
  push_cast
  have h81 : ((81 : ℝ)/100) = (9/10) ^ 2 := by norm_num
  rw [Real.sqrt_mul (by norm_num) _, h81, Real.sqrt_sq (by norm_num)]

lemma iterate_interactiveStep_dist (mouse p : ℚ × ℚ) (n : ℕ) :
    pointerDist ((interactiveStep mouse)^[n] p) mouse =
      (9/10) ^ n * pointerDist p mouse := by
  induction n with
  | zero => simp
  | succ k ih =>
      rw [Function.iterate_succ_apply', interactiveStep_ratio, ih, pow_succ]
      ring

/-- Claim C2 (amended): under a fixed mouse position each simulation step
multiplies the interactive blob's distance to the pointer by exactly 0.9;
hence the distance strictly decreases whenever it is positive, and for
every positive ε it falls below ε after boundedly many steps. (The
unamended claim's unconditional strict decrease fails when the blob
already sits at the pointer.) -/
theorem C2_pointer_convergence (mouse p : ℚ × ℚ) (ε : ℝ) (hε : 0 < ε) :
    pointerDist (interactiveStep mouse p) mouse = (9/10) * pointerDist p mouse ∧
    (0 < pointerDist p mouse →
      pointerDist (interactiveStep mouse p) mouse < pointerDist p mouse) ∧
    ∃ N : ℕ, ∀ n : ℕ, N ≤ n →
      pointerDist ((interactiveStep mouse)^[n] p) mouse < ε := by
  refine ⟨interactiveStep_ratio mouse p, ?_, ?_⟩
  · intro hpos
    rw [interactiveStep_ratio]
    linarith
  · set D := pointerDist p mouse with hD
    have hD0 : 0 ≤ D := pointerDist_nonneg p mouse
    obtain ⟨N, hN⟩ := exists_pow_lt_of_lt_one
      (show (0 : ℝ) < ε / (D + 1) by positivity)
      (show (9/10 : ℝ) < 1 by norm_num)
    refine ⟨N, fun n hn => ?_⟩
    rw [iterate_interactiveStep_dist]
    calc (9/10 : ℝ) ^ n * D
        ≤ (9/10) ^ N * D :=
          mul_le_mul_of_nonneg_right
            (pow_le_pow_of_le_one (by norm_num) (by norm_num) hn) hD0
      _ ≤ (9/10) ^ N * (D + 1) :=
          mul_le_mul_of_nonneg_left (by linarith) (by positivity)
      _ < (ε / (D + 1)) * (D + 1) :=
          mul_lt_mul_of_pos_right hN (by positivity)
      _ = ε := div_mul_cancel₀ ε (by positivity)

/-- Counterexample to the unamended claim C2: when the interactive blob
already sits exactly at the pointer — which is the initial state, since
both the mouse and the interactive circle start at
`(width/2, height/2)` — the distance is `0` and does not strictly
decrease. -/
theorem C2_strict_decrease_counterexample :
    ¬ (pointerDist (interactiveStep ((0 : ℚ), (0 : ℚ)) ((0 : ℚ), (0 : ℚ))) ((0 : ℚ), (0 : ℚ)) <
        pointerDist ((0 : ℚ), (0 : ℚ)) ((0 : ℚ), (0 : ℚ))) := by
  simp [pointerDist, interactiveStep]

/-- Witness for C2 at mouse `(0,0)`, blob `(3,0)`, ε `1`. -/
theorem C2_pointer_convergence_witness :
    (0 : ℝ) < 1 ∧
    (pointerDist (interactiveStep ((0 : ℚ), (0 : ℚ)) ((3 : ℚ), (0 : ℚ))) ((0 : ℚ), (0 : ℚ)) =
        (9/10) * pointerDist ((3 : ℚ), (0 : ℚ)) ((0 : ℚ), (0 : ℚ)) ∧
      (0 < pointerDist ((3 : ℚ), (0 : ℚ)) ((0 : ℚ), (0 : ℚ)) →
        pointerDist (interactiveStep ((0 : ℚ), (0 : ℚ)) ((3 : ℚ), (0 : ℚ))) ((0 : ℚ), (0 : ℚ)) <
          pointerDist ((3 : ℚ), (0 : ℚ)) ((0 : ℚ), (0 : ℚ))) ∧
      ∃ N : ℕ, ∀ n : ℕ, N ≤ n →
        pointerDist ((interactiveStep ((0 : ℚ), (0 : ℚ)))^[n] ((3 : ℚ), (0 : ℚ)))
          ((0 : ℚ), (0 : ℚ)) < 1) :=
  ⟨by norm_num,
   C2_pointer_convergence ((0 : ℚ), (0 : ℚ)) ((3 : ℚ), (0 : ℚ)) 1 (by norm_num)⟩

/-! ## Field Renderer fragment shader (`canvas_webgl.vue` `fragmentSrc`) -/

/-- An RGB colour vector of the shader (`vec3`). -/
abbrev RGB := ℝ × ℝ × ℝ

/-- Componentwise `vec3` addition. -/
noncomputable def addRGB (a b : RGB) : RGB := (a.1 + b.1, a.2.1 + b.2.1, a.2.2 + b.2.2)

/-- Scalar–`vec3` multiplication. -/
noncomputable def smulRGB (t : ℝ) (a : RGB) : RGB := (t * a.1, t * a.2.1, t * a.2.2)

/-- `vec3`-by-scalar division. -/
noncomputable def divRGB (a : RGB) (s : ℝ) : RGB := (a.1 / s, a.2.1 / s, a.2.2 / s)

/-- GLSL `mix(x, y, a) = x*(1-a) + y*a`, componentwise. -/
noncomputable def mixRGB (a b : RGB) (t : ℝ) : RGB :=
  (a.1 * (1 - t) + b.1 * t, a.2.1 * (1 - t) + b.2.1 * t, a.2.2 * (1 - t) + b.2.2 * t)

/-- GLSL `clamp(x, lo, hi) = min(max(x, lo), hi)`. -/
noncomputable def clampR (x lo hi : ℝ) : ℝ := min (max x lo) hi

/-- GLSL `length` of a `vec2`. -/
noncomputable def glLength (v : ℝ × ℝ) : ℝ := Real.sqrt (v.1 ^ 2 + v.2 ^ 2)

/-- One shader blob slot: the `u_circlesPosRad[i]` entry (position and
radius) together with the `u_circlesColor[i]` entry. -/
structure Slot where
  pos : ℝ × ℝ
  radius : ℝ
  color : RGB

/-- The gaussian-like field contribution of one slot at sample point `st`
(`fragmentSrc` lines: `dist = length(st - cPos)`, `sigma = radius * 0.5`,
`val = exp(-(dist*dist) / (2.0*sigma*sigma))`). -/
noncomputable def gaussVal (st : ℝ × ℝ) (s : Slot) : ℝ :=
  Real.exp (-(glLength (st.1 - s.pos.1, st.2 - s.pos.2) *
      glLength (st.1 - s.pos.1, st.2 - s.pos.2)) /
    (2 * (s.radius * (1/2)) * (s.radius * (1/2))))

/-- The shader's running accumulators `fieldSum` and `weightedColorSum`. -/
structure FieldAcc where
  fieldSum : ℝ
  weightedColorSum : RGB

/-- The accumulation loop `for (int i = 0; i < 6; i++)` of `fragmentSrc`,
including its `if (i >= u_circleCount) { break; }` guard. -/
noncomputable def fieldLoop (count : ℕ) (slots : Fin 6 → Slot) (st : ℝ × ℝ)
    (i : ℕ) (acc : FieldAcc) : FieldAcc :=
  if h : i < 6 then
    if count ≤ i then acc
    else
      fieldLoop count slots st (i + 1)
        { fieldSum := acc.fieldSum + gaussVal st (slots ⟨i, h⟩),
          weightedColorSum := addRGB acc.weightedColorSum
            (smulRGB (gaussVal st (slots ⟨i, h⟩)) (slots ⟨i, h⟩).color) }
  else acc
termination_by 6 - i

/-- The loop's result starting from zero accumulators. -/
noncomputable def fieldAcc (count : ℕ) (slots : Fin 6 → Slot) (st : ℝ × ℝ) :
    FieldAcc :=
  fieldLoop count slots st 0 ⟨0, (0, 0, 0)⟩

/-- `finalCirclesColor` of `fragmentSrc`: `weightedColorSum / fieldSum`
when `fieldSum > 0.0`, else `vec3(0.0)`. -/
noncomputable def finalCirclesColor (count : ℕ) (slots : Fin 6 → Slot)
    (st : ℝ × ℝ) : RGB :=
  if 0 < (fieldAcc count slots st).fieldSum then
    divRGB (fieldAcc count slots st).weightedColorSum (fieldAcc count slots st).fieldSum
  else (0, 0, 0)

/-- `intensity = pow(fieldSum, 1.4)` of `fragmentSrc`. -/
noncomputable def intensity (count : ℕ) (slots : Fin 6 → Slot) (st : ℝ × ℝ) : ℝ :=
  (fieldAcc count slots st).fieldSum ^ (14/10 : ℝ)

/-- The background gradient of `fragmentSrc`:
`mix(topColor, bottomColor, st.y / u_resolution.y)`. -/
noncomputable def bgColorAt (resolution st : ℝ × ℝ) : RGB :=
  mixRGB (108/255, 0, 162/255) (0, 17/255, 82/255) (st.2 / resolution.2)

/-- The light-theme arm of the final mix
(`finalColor = mix(bgColor, finalCirclesColor, clamp(intensity, 0.0, 1.0))`). -/
noncomputable def lightModeMix (bgColor finalColor : RGB) (i : ℝ) : RGB :=
  mixRGB bgColor finalColor (clampR i 0 1)

/-- The dark-theme arm of the final mix: the uncommented line of the
`else` branch, currently the same expression as the light arm (the
alternate `intensity * 0.5` formula is commented out in the source). -/
noncomputable def darkModeMix (bgColor finalColor : RGB) (i : ℝ) : RGB :=
  mixRGB bgColor finalColor (clampR i 0 1)

/-- The fragment shader's per-pixel output at sample point `st` (pixel
coordinates, `st = v_uv * u_resolution`). -/
noncomputable def shaderPixel (darkMode : Bool) (count : ℕ)
    (slots : Fin 6 → Slot) (resolution st : ℝ × ℝ) : RGB :=
  if !darkMode then
    lightModeMix (bgColorAt resolution st) (finalCirclesColor count slots st)
      (intensity count slots st)
  else
    darkModeMix (bgColorAt resolution st) (finalCirclesColor count slots st)
      (intensity count slots st)

/-- The dummy uniform entry the `render` function uploads for slots past
`circles.length` (`canvas_webgl.vue` lines 256–260). -/
def dummySlot : Slot := ⟨(0, 0), 0, (0, 0, 0)⟩

lemma fieldLoop_agree (count : ℕ) (f g : Fin 6 → Slot) (st : ℝ × ℝ)
    (hagree : ∀ j : Fin 6, j.val < count → f j = g j) :
    ∀ k i acc, 6 - i ≤ k →
      fieldLoop count f st i acc = fieldLoop count g st i acc := by
  intro k
  induction k with
  | zero =>
      intro i acc h
      have h6 : ¬ i < 6 := by omega
      rw [fieldLoop, fieldLoop]
      simp [h6]
  | succ k ih =>
      intro i acc h
      rw [fieldLoop, fieldLoop]
      by_cases h6 : i < 6
      · simp only [dif_pos h6]
        by_cases hc : count ≤ i
        · simp [hc]
        · simp only [if_neg hc]
          rw [hagree ⟨i, h6⟩ (by simp only [Fin.val_mk]; omega),
            ih (i + 1) _ (by omega)]
      · simp [h6]

lemma gaussVal_pos (st : ℝ × ℝ) (s : Slot) : 0 < gaussVal st s :=
  Real.exp_pos _

lemma fieldLoop_two (slots : Fin 6 → Slot) (st : ℝ × ℝ) :
    fieldAcc 2 slots st =
      { fieldSum := 0 + gaussVal st (slots 0) + gaussVal st (slots 1),
        weightedColorSum := addRGB (addRGB (0, 0, 0)
          (smulRGB (gaussVal st (slots 0)) (slots 0).color))
          (smulRGB (gaussVal st (slots 1)) (slots 1).color) } := by
  unfold fieldAcc
  rw [fieldLoop]
  norm_num
  rw [fieldLoop]
  norm_num
  rw [fieldLoop]
  norm_num

/-- Claim C3: with exactly two blob slots of equal radius and equal
distance to the sample point, the resolved blob colour
`weightedColorSum / fieldSum` is exactly the plain average of the two
colours, whatever the magnitude of `fieldSum`. -/
theorem C3_equal_blend (slots : Fin 6 → Slot) (st : ℝ × ℝ)
    (hrad : (slots 0).radius = (slots 1).radius)
    (hdist : glLength (st.1 - (slots 0).pos.1, st.2 - (slots 0).pos.2) =
      glLength (st.1 - (slots 1).pos.1, st.2 - (slots 1).pos.2)) :
    finalCirclesColor 2 slots st =
      smulRGB (1/2) (addRGB (slots 0).color (slots 1).color) := by
  have hval : gaussVal st (slots 0) = gaussVal st (slots 1) := by
    unfold gaussVal
    rw [hdist, hrad]
  set v := gaussVal st (slots 1) with hv
  have hvpos : 0 < v := gaussVal_pos st (slots 1)
  unfold finalCirclesColor
  rw [fieldLoop_two, hval]
  have hsum : (0 : ℝ) + v + v = 2 * v := by ring
  simp only [hsum]
  rw [if_pos (by linarith)]
  simp only [divRGB, addRGB, smulRGB, Prod.mk.injEq]
  refine ⟨?_, ?_, ?_⟩ <;> (field_simp; ring)

/-- Witness for C3: two unit-radius slots at `(0,0)` and `(2,0)` with
colours red and green, sampled at the midpoint `(1,0)`; the resolved
colour is the half-half blend. -/
theorem C3_equal_blend_witness :
    ((fun i : Fin 6 =>
        if i = 0 then (⟨(0, 0), 1, (1, 0, 0)⟩ : Slot)
        else if i = 1 then ⟨(2, 0), 1, (0, 1, 0)⟩
        else dummySlot) 0).radius =
      ((fun i : Fin 6 =>
        if i = 0 then (⟨(0, 0), 1, (1, 0, 0)⟩ : Slot)
        else if i = 1 then ⟨(2, 0), 1, (0, 1, 0)⟩
        else dummySlot) 1).radius ∧
    glLength ((1 : ℝ) - 0, (0 : ℝ) - 0) = glLength ((1 : ℝ) - 2, (0 : ℝ) - 0) ∧
    finalCirclesColor 2
      (fun i : Fin 6 =>
        if i = 0 then (⟨(0, 0), 1, (1, 0, 0)⟩ : Slot)
        else if i = 1 then ⟨(2, 0), 1, (0, 1, 0)⟩
        else dummySlot) (1, 0) =
      smulRGB (1/2) (addRGB (1, 0, 0) (0, 1, 0)) := by
  have hdist : glLength ((1 : ℝ) - 0, (0 : ℝ) - 0) = glLength ((1 : ℝ) - 2, (0 : ℝ) - 0) := by
    unfold glLength
    norm_num
  refine ⟨rfl, hdist, ?_⟩
  exact C3_equal_blend _ (1, 0) rfl (by simpa using hdist)

/-- Claim C4: with fewer than 6 blobs, uploading the zero dummy entry in
the unused slots produces exactly the same per-pixel output as any other
contents of those slots (in particular, as the real blobs alone): the
loop's `break` makes the output depend only on slots below
`u_circleCount`. -/
theorem C4_padding_neutral (darkMode : Bool) (count : ℕ) (hcount : count < 6)
    (f : Fin 6 → Slot) (resolution st : ℝ × ℝ) :
    shaderPixel darkMode count
      (fun i : Fin 6 => if i.val < count then f i else dummySlot) resolution st =
      shaderPixel darkMode count f resolution st := by
  have hacc : fieldAcc count
      (fun i : Fin 6 => if i.val < count then f i else dummySlot) st =
      fieldAcc count f st := by
    unfold fieldAcc
    exact fieldLoop_agree count _ f st
      (fun j hj => by simp [hj]) 6 0 ⟨0, (0, 0, 0)⟩ (by omega)
  unfold shaderPixel lightModeMix darkModeMix finalCirclesColor intensity
  rw [hacc]

/-- Witness for C4: one real slot (`count = 1`), light theme, resolution
`(100, 100)`, sample point `(3, 4)`. -/
theorem C4_padding_neutral_witness :
    (1 : ℕ) < 6 ∧
    shaderPixel false 1
      (fun i : Fin 6 =>
        if i.val < 1 then (fun _ : Fin 6 => (⟨(5, 5), 2, (1, 1, 0)⟩ : Slot)) i
        else dummySlot) (100, 100) (3, 4) =
      shaderPixel false 1 (fun _ : Fin 6 => (⟨(5, 5), 2, (1, 1, 0)⟩ : Slot))
        (100, 100) (3, 4) :=
  ⟨by norm_num,
   C4_padding_neutral false 1 (by norm_num)
     (fun _ : Fin 6 => (⟨(5, 5), 2, (1, 1, 0)⟩ : Slot)) (100, 100) (3, 4)⟩

/-- `blurMode` of `canvas_html.vue` `animate` (line 152): the blur filter
string chosen from the theme flag `$q.dark.isActive`. -/
def blurMode (darkActive : Bool) : String :=
  if !darkActive then "blur(80px)" else "blur(40px)"

/-- `lightMode` of `canvas_html.vue` `animate` (line 168): the composite
operation chosen from the theme flag. -/
def lightMode (darkActive : Bool) : String :=
  if !darkActive then "lighter" else "hue"

/-- Claim C6: the theme boolean alone selects the documented branch — the
Raster Compositor uses blur 80px and the additive `lighter` composite in
light theme, blur 40px and the `hue` composite in dark theme, and the
Field Renderer routes `darkMode=false` through the light-theme mix arm
and `darkMode=true` through the dark-theme mix arm. -/
theorem C6_theme_branch_selection :
    blurMode false = "blur(80px)" ∧ blurMode true = "blur(40px)" ∧
    lightMode false = "lighter" ∧ lightMode true = "hue" ∧
    (∀ (count : ℕ) (slots : Fin 6 → Slot) (resolution st : ℝ × ℝ),
      shaderPixel false count slots resolution st =
        lightModeMix (bgColorAt resolution st) (finalCirclesColor count slots st)
          (intensity count slots st)) ∧
    (∀ (count : ℕ) (slots : Fin 6 → Slot) (resolution st : ℝ × ℝ),
      shaderPixel true count slots resolution st =
        darkModeMix (bgColorAt resolution st) (finalCirclesColor count slots st)
          (intensity count slots st)) :=
  ⟨rfl, rfl, rfl, rfl, fun _ _ _ _ => rfl, fun _ _ _ _ => rfl⟩

/-- Claim C7: the dark-theme mix arm of the fragment shader computes the
very same function as the light-theme arm (the alternate dark formula is
commented out), so the themed outputs coincide pixelwise. -/
theorem C7_dark_arm_equals_light_arm :
    (∀ (bgColor finalColor : RGB) (i : ℝ),
      darkModeMix bgColor finalColor i = lightModeMix bgColor finalColor i) ∧
    (∀ (count : ℕ) (slots : Fin 6 → Slot) (resolution st : ℝ × ℝ),
      shaderPixel true count slots resolution st =
        shaderPixel false count slots resolution st) :=
  ⟨fun _ _ _ => rfl, fun _ _ _ _ => rfl⟩

/-! ## Scene creation (`initCircles` / `init`) -/

/-- The fixed six-entry palette: `circleColors` of `canvas_webgl.vue`
(lines 39–46); the string palette of `canvas_html.vue` `init` denotes the
same colours with components scaled by 255. -/
def circleColors : Fin 6 → RGBQ
  | 0 => (18/255, 113/255, 1)
  | 1 => (221/255, 74/255, 1)
  | 2 => (100/255, 220/255, 1)
  | 3 => (200/255, 50/255, 50/255)
  | 4 => (180/255, 180/255, 50/255)
  | 5 => (140/255, 100/255, 1)

/-- The ambient circle built by iteration `i` of the creation loop, with
the random draws `Math.random()` passed in as parameters `rx ry rs rvx rvy`
(one independent draw of each kind per iteration):
`radius = (width+height)*0.2`, `x = random()*width`, `y = random()*height`,
`speedMultiplier = random()*4 + 1`, velocity components
`(random() - 0.5) * speedMultiplier`. -/
def ambientCircle (width height : ℚ) (rx ry rs rvx rvy : Fin 5 → ℚ)
    (i : Fin 5) : Circle :=
  { x := rx i * width,
    y := ry i * height,
    radius := (width + height) * (2/10),
    color := circleColors i.castSucc,
    vx := (rvx i - 1/2) * (rs i * 4 + 1),
    vy := (rvy i - 1/2) * (rs i * 4 + 1),
    interactive := false }

/-- `initCircles` of `canvas_webgl.vue` (lines 49–82) — identically
`init` of `canvas_html.vue` (lines 98–134): the 5-iteration ambient loop
unrolled, followed by the pushed interactive circle at the canvas centre
with `radius = (width+height)*0.1`. -/
def initCircles (width height : ℚ) (rx ry rs rvx rvy : Fin 5 → ℚ) :
    List Circle :=
  [ambientCircle width height rx ry rs rvx rvy 0,
   ambientCircle width height rx ry rs rvx rvy 1,
   ambientCircle width height rx ry rs rvx rvy 2,
   ambientCircle width height rx ry rs rvx rvy 3,
   ambientCircle width height rx ry rs rvx rvy 4,
   { x := width / 2, y := height / 2,
     radius := (width + height) * (1/10),
     color := circleColors 5, vx := 0, vy := 0, interactive := true }]

/-- The scene after `n` whole-scene simulation steps from creation. -/
def sceneAfter (width height : ℚ) (rx ry rs rvx rvy : Fin 5 → ℚ)
    (mouse : ℚ × ℚ) (n : ℕ) : List Circle :=
  (updateCircles mouse width height)^[n]
    (initCircles width height rx ry rs rvx rvy)

/-- The step-invariant observables of a circle: its interactive flag and
its colour. -/
def obsCircle (c : Circle) : Bool × RGBQ := (c.interactive, c.color)

lemma stepCircle_obs (mouse : ℚ × ℚ) (width height : ℚ) (c : Circle) :
    obsCircle (stepCircle mouse width height c) = obsCircle c := by
  unfold obsCircle stepCircle Circle.update
  by_cases hi : c.interactive <;> simp [hi]

lemma stepCircle_radius (mouse : ℚ × ℚ) (width height : ℚ) (c : Circle) :
    (stepCircle mouse width height c).radius = c.radius := by
  unfold stepCircle Circle.update
  by_cases hi : c.interactive <;> simp [hi]

lemma updateCircles_obs (mouse : ℚ × ℚ) (width height : ℚ) (l : List Circle) :
    (updateCircles mouse width height l).map obsCircle = l.map obsCircle := by
  unfold updateCircles
  rw [List.map_map]
  exact List.map_congr_left (fun c _ => stepCircle_obs mouse width height c)

lemma sceneAfter_obs (width height : ℚ) (rx ry rs rvx rvy : Fin 5 → ℚ)
    (mouse : ℚ × ℚ) (n : ℕ) :
    (sceneAfter width height rx ry rs rvx rvy mouse n).map obsCircle =
      (initCircles width height rx ry rs rvx rvy).map obsCircle := by
  unfold sceneAfter
  induction n with
  | zero => rfl
  | succ k ih => rw [Function.iterate_succ_apply', updateCircles_obs, ih]

/-- Claim C8: scene creation yields exactly 6 blobs — 5 non-interactive
blobs followed by 1 interactive blob, with palette colours assigned by
fixed positional index independent of the random draws — and this
structure (count 6, slot order, exactly one interactive blob) is
preserved by every subsequent simulation step. -/
theorem C8_scene_structure (width height : ℚ) (rx ry rs rvx rvy : Fin 5 → ℚ)
    (mouse : ℚ × ℚ) (n : ℕ) :
    (sceneAfter width height rx ry rs rvx rvy mouse n).length = 6 ∧
    (∀ i : Fin 5, ∃ c : Circle,
      (sceneAfter width height rx ry rs rvx rvy mouse n)[i.val]? = some c ∧
      c.interactive = false ∧ c.color = circleColors i.castSucc) ∧
    (∃ c : Circle,
      (sceneAfter width height rx ry rs rvx rvy mouse n)[5]? = some c ∧
      c.interactive = true ∧ c.color = circleColors 5) ∧
    (sceneAfter width height rx ry rs rvx rvy mouse n).countP
      (fun c => c.interactive) = 1 := by
  have hobs := sceneAfter_obs width height rx ry rs rvx rvy mouse n
  set scene := sceneAfter width height rx ry rs rvx rvy mouse n with hscene
  have hlen : scene.length = 6 := by
    have := congrArg List.length hobs
    simpa [initCircles] using this
  have hidx : ∀ j : ℕ,
      (scene[j]?).map obsCircle =
        ((initCircles width height rx ry rs rvx rvy)[j]?).map obsCircle := by
    intro j
    rw [← List.getElem?_map, hobs, List.getElem?_map]
  refine ⟨hlen, ?_, ?_, ?_⟩
  · intro i
    have h := hidx i.val
    fin_cases i <;>
      · simp only [initCircles, ambientCircle] at h
        norm_num at h
        obtain ⟨c, hc, hobs2⟩ := h
        refine ⟨c, hc, ?_, ?_⟩
        · have := congrArg Prod.fst hobs2
          simpa [obsCircle] using this
        · have := congrArg Prod.snd hobs2
          simpa [obsCircle, ambientCircle] using this
  · have h := hidx 5
    simp only [initCircles] at h
    norm_num at h
    obtain ⟨c, hc, hobs2⟩ := h
    refine ⟨c, hc, ?_, ?_⟩
    · have := congrArg Prod.fst hobs2
      simpa [obsCircle] using this
    · have := congrArg Prod.snd hobs2
      simpa [obsCircle] using this
  · have h := congrArg (List.countP (fun v : Bool × RGBQ => v.1)) hobs
    rw [List.countP_map, List.countP_map] at h
    have hcomp :
        ((fun v : Bool × RGBQ => v.1) ∘ obsCircle) = fun c : Circle => c.interactive := rfl
    rw [hcomp] at h
    rw [h]
    simp [initCircles, ambientCircle]

/-! ## Uniform upload (`render`, `canvas_webgl.vue` lines 241–264) -/

/-- The uniform data of one circle: `posRadArr` gets `(c.x, c.y, c.radius)`
and `colorsArr` gets the colour components. -/
noncomputable def slotOfCircle (c : Circle) : Slot :=
  { pos := ((c.x : ℝ), (c.y : ℝ)),
    radius := (c.radius : ℝ),
    color := ((c.color.1 : ℝ), (c.color.2.1 : ℝ), (c.color.2.2 : ℝ)) }

/-- The six uploaded slots: index `i < circles.length` gets the circle's
data, the rest the zero dummy entry (`render` lines 251–261). -/
noncomputable def uploadSlots (circles : List Circle) : Fin 6 → Slot :=
  fun i =>
    if h : i.val < circles.length then slotOfCircle (circles.get ⟨i.val, h⟩)
    else dummySlot

lemma sceneAfter_radius_mem (width height : ℚ) (rx ry rs rvx rvy : Fin 5 → ℚ)
    (mouse : ℚ × ℚ) (n : ℕ) :
    ∀ c ∈ sceneAfter width height rx ry rs rvx rvy mouse n,
      ∃ a ∈ initCircles width height rx ry rs rvx rvy, c.radius = a.radius := by
  unfold sceneAfter
  induction n with
  | zero => exact fun c hc => ⟨c, hc, rfl⟩
  | succ k ih =>
      intro c hc
      rw [Function.iterate_succ_apply'] at hc
      unfold updateCircles at hc
      obtain ⟨a, ha, rfl⟩ := List.mem_map.mp hc
      obtain ⟨b, hb, hab⟩ := ih a ha
      exact ⟨b, hb, by rw [stepCircle_radius, hab]⟩

lemma initCircles_radius_pos (width height : ℚ) (hwh : 0 < width + height)
    (rx ry rs rvx rvy : Fin 5 → ℚ) :
    ∀ c ∈ initCircles width height rx ry rs rvx rvy, 0 < c.radius := by
  intro c hc
  simp only [initCircles, ambientCircle, List.mem_cons, List.mem_singleton,
    List.not_mem_nil, or_false] at hc
  rcases hc with h | h | h | h | h | h <;> (subst h; simp; linarith)

lemma sceneAfter_radius_pos (width height : ℚ) (hwh : 0 < width + height)
    (rx ry rs rvx rvy : Fin 5 → ℚ) (mouse : ℚ × ℚ) (n : ℕ) :
    ∀ c ∈ sceneAfter width height rx ry rs rvx rvy mouse n, 0 < c.radius := by
  intro c hc
  obtain ⟨a, ha, hr⟩ :=
    sceneAfter_radius_mem width height rx ry rs rvx rvy mouse n c hc
  rw [hr]
  exact initCircles_radius_pos width height hwh rx ry rs rvx rvy a ha

/-- Claim C10: for every slot index the fragment loop actually evaluates
(`i < u_circleCount`, where `render` passes `u_circleCount =
circles.length`), the uploaded radius is positive — real blobs have
radius `(width+height)*0.2` or `(width+height)*0.1 > 0` — so the gaussian
division's denominator `2*sigma*sigma` with `sigma = radius*0.5` is
nonzero; the zero-radius dummy slots sit at indices `≥ u_circleCount`,
unreachable past the loop's break. -/
theorem C10_no_zero_sigma_division (width height : ℚ)
    (hwh : 0 < width + height) (rx ry rs rvx rvy : Fin 5 → ℚ)
    (mouse : ℚ × ℚ) (n : ℕ) (i : Fin 6)
    (hi : i.val < (sceneAfter width height rx ry rs rvx rvy mouse n).length) :
    0 < (uploadSlots (sceneAfter width height rx ry rs rvx rvy mouse n) i).radius ∧
    2 * ((uploadSlots (sceneAfter width height rx ry rs rvx rvy mouse n) i).radius * (1/2)) *
        ((uploadSlots (sceneAfter width height rx ry rs rvx rvy mouse n) i).radius * (1/2)) ≠ 0 := by
  set scene := sceneAfter width height rx ry rs rvx rvy mouse n with hscene
  have hradq : 0 < (scene.get ⟨i.val, hi⟩).radius :=
    sceneAfter_radius_pos width height hwh rx ry rs rvx rvy mouse n _
      (List.get_mem scene i.val hi)
  have hslot : uploadSlots scene i = slotOfCircle (scene.get ⟨i.val, hi⟩) := by
    unfold uploadSlots
    rw [dif_pos hi]
  have hcast : (slotOfCircle (scene.get ⟨i.val, hi⟩)).radius =
      ((scene.get ⟨i.val, hi⟩).radius : ℝ) := rfl
  have hradius : (0 : ℝ) < (uploadSlots scene i).radius := by
    rw [hslot, hcast]
    exact_mod_cast hradq
  refine ⟨hradius, ?_⟩
  have : 2 * ((uploadSlots scene i).radius * (1/2)) *
      ((uploadSlots scene i).radius * (1/2)) =
      (uploadSlots scene i).radius ^ 2 * (1/2) := by ring
  rw [this]
  positivity

/-- Witness for C10: canvas 100×100, all random draws 1/2, slot index 0
straight after creation. -/
theorem C10_no_zero_sigma_division_witness :
    (0 : ℚ) < 100 + 100 ∧
    (0 : ℕ) <
      (sceneAfter 100 100 (fun _ => 1/2) (fun _ => 1/2) (fun _ => 1/2)
        (fun _ => 1/2) (fun _ => 1/2) (0, 0) 0).length ∧
    (0 < (uploadSlots
        (sceneAfter 100 100 (fun _ => 1/2) (fun _ => 1/2) (fun _ => 1/2)
          (fun _ => 1/2) (fun _ => 1/2) (0, 0) 0) 0).radius ∧
      2 * ((uploadSlots
          (sceneAfter 100 100 (fun _ => 1/2) (fun _ => 1/2) (fun _ => 1/2)
            (fun _ => 1/2) (fun _ => 1/2) (0, 0) 0) 0).radius * (1/2)) *
        ((uploadSlots
          (sceneAfter 100 100 (fun _ => 1/2) (fun _ => 1/2) (fun _ => 1/2)
            (fun _ => 1/2) (fun _ => 1/2) (0, 0) 0) 0).radius * (1/2)) ≠ 0) :=
  ⟨by norm_num, by simp [sceneAfter, initCircles],
   C10_no_zero_sigma_division 100 100 (by norm_num) (fun _ => 1/2)
     (fun _ => 1/2) (fun _ => 1/2) (fun _ => 1/2) (fun _ => 1/2) (0, 0) 0 0
     (by simp [sceneAfter, initCircles])⟩

/-! ## Lifecycle (`onMounted` / `onUnmounted`, frame loop, listeners) -/

/-- The mutable state a mounted component owns: the scene, the viewport
and mouse, which listeners are attached, and whether an animation frame
is scheduled. -/
structure CompState where
  circles : List Circle
  mouse : ℚ × ℚ
  width : ℚ
  height : ℚ
  resizeListener : Bool
  mouseListener : Bool
  frameScheduled : Bool
deriving DecidableEq

/-- One fired animation frame: if a frame callback is scheduled, the
callback (`animate` / `render`) advances every circle and re-requests a
frame; otherwise nothing runs. -/
def frameTick (s : CompState) : CompState :=
  if s.frameScheduled then
    { s with circles := updateCircles s.mouse s.width s.height s.circles }
  else s

/-- A delivered `mousemove` event: the handler `onMouseMove` stores the
client coordinates, and runs only while the listener is attached. -/
def mouseMoveEvent (e : ℚ × ℚ) (s : CompState) : CompState :=
  if s.mouseListener then { s with mouse := e } else s

/-- A delivered `resize` event for `canvas_webgl.vue` `resizeCanvas`:
store the new dimensions (the scene is kept). -/
def webglResizeEvent (w h : ℚ) (s : CompState) : CompState :=
  if s.resizeListener then { s with width := w, height := h } else s

/-- A delivered `resize` event for `canvas_html.vue` `resizeCanvas`:
store the new dimensions and re-initialize the circles. -/
def htmlResizeEvent (w h : ℚ) (rx ry rs rvx rvy : Fin 5 → ℚ)
    (s : CompState) : CompState :=
  if s.resizeListener then
    { s with
      width := w,
      height := h,
      circles := initCircles w h rx ry rs rvx rvy }
  else s

/-- `onUnmounted` of `canvas_html.vue` (lines 183–187): remove both
listeners and `cancelAnimationFrame(animationFrameId)`. -/
def htmlOnUnmounted (s : CompState) : CompState :=
  { s with
    resizeListener := false,
    mouseListener := false,
    frameScheduled := false }

/-- `onUnmounted` of `canvas_webgl.vue` (lines 273–276): remove both
listeners — and nothing else; the component stores no animation-frame id
and never calls `cancelAnimationFrame`. -/
def webglOnUnmounted (s : CompState) : CompState :=
  { s with resizeListener := false, mouseListener := false }

/-- A running Field Renderer state with one ambient circle in motion, as
any mounted instance has when teardown happens mid-animation. -/
def exampleRunningState : CompState :=
  { circles := [{ x := 0, y := 0, radius := 10, color := (0, 0, 0),
                  vx := 1, vy := 0, interactive := false }],
    mouse := (0, 0), width := 100, height := 100,
    resizeListener := true, mouseListener := true, frameScheduled := true }

/-- Claim C5, as far as the code satisfies it: after the Raster
Compositor's teardown no event mutates the state ever again, and after
the Field Renderer's teardown the two listeners are indeed inert — but
the Field Renderer's teardown leaves the scheduled frame callback
uncancelled, so the next animation frame still mutates the scene (the
claim fails there: see the last two conjuncts evaluating the running
state). -/
theorem C5_teardown_effects (s : CompState) (e : ℚ × ℚ) (w h : ℚ)
    (rx ry rs rvx rvy : Fin 5 → ℚ) :
    frameTick (htmlOnUnmounted s) = htmlOnUnmounted s ∧
    mouseMoveEvent e (htmlOnUnmounted s) = htmlOnUnmounted s ∧
    htmlResizeEvent w h rx ry rs rvx rvy (htmlOnUnmounted s) = htmlOnUnmounted s ∧
    mouseMoveEvent e (webglOnUnmounted s) = webglOnUnmounted s ∧
    webglResizeEvent w h (webglOnUnmounted s) = webglOnUnmounted s ∧
    (webglOnUnmounted s).frameScheduled = s.frameScheduled ∧
    (webglOnUnmounted exampleRunningState).frameScheduled = true ∧
    (frameTick (webglOnUnmounted exampleRunningState)).circles ≠
      (webglOnUnmounted exampleRunningState).circles := by
  refine ⟨?_, ?_, ?_, ?_, ?_, rfl, rfl, ?_⟩
  · simp [frameTick, htmlOnUnmounted]
  · simp [mouseMoveEvent, htmlOnUnmounted]
  · simp [htmlResizeEvent, htmlOnUnmounted]
  · simp [mouseMoveEvent, webglOnUnmounted]
  · simp [webglResizeEvent, webglOnUnmounted]
  · simp only [frameTick, webglOnUnmounted, exampleRunningState,
      updateCircles, stepCircle, Circle.update, List.map]
    norm_num [Circle.mk.injEq]

/-! ## `onMounted` entry of the Field Renderer (`canvas_webgl.vue` 12–17) -/

/-- The externally visible outcome of mounting the Field Renderer. -/
structure MountOutcome where
  diagnostics : List String
  resizeListener : Bool
  mouseListener : Bool
  sceneCreated : Bool
  renderLoopStarted : Bool
deriving DecidableEq

/-- The effect trace of `onMounted` in `canvas_webgl.vue`: the guard
`if (!gl) { console.error("WebGL not supported"); return; }` runs before
any listener attachment, `initCircles()` and the first `render()`; when
the context exists the mount proceeds through all of them. -/
def webglOnMounted (glAvailable : Bool) : MountOutcome :=
  if !glAvailable then
    { diagnostics := ["WebGL not supported"],
      resizeListener := false, mouseListener := false,
      sceneCreated := false, renderLoopStarted := false }
  else
    { diagnostics := [],
      resizeListener := true, mouseListener := true,
      sceneCreated := true, renderLoopStarted := true }

/-- Claim C9: when `getContext("webgl")` yields no context the Field
Renderer emits exactly one diagnostic and returns before entering the
Running state — no listener is attached, no scene is created, no render
loop starts. -/
theorem C9_webgl_unavailable_aborts :
    (webglOnMounted false).diagnostics = ["WebGL not supported"] ∧
    (webglOnMounted false).diagnostics.length = 1 ∧
    (webglOnMounted false).resizeListener = false ∧
    (webglOnMounted false).mouseListener = false ∧
    (webglOnMounted false).sceneCreated = false ∧
    (webglOnMounted false).renderLoopStarted = false :=
  ⟨rfl, rfl, rfl, rfl, rfl, rfl⟩

end LavaLamp
